import Mathlib

/-!
Verification of the R-documentation core of the `mcp-package-docs` repository
(`src/r-docs-integration.ts`).

The TypeScript source is shallowly embedded below:

* `parseRDoc`, `addSectionToResult` — the documentation-text parser
  (`RDocsHandler.parseRDoc` / `RDocsHandler.addSectionToResult`);
* `describeRPackage`, `getRPackageDoc` — the facade methods, with the
  external `Rscript` collaborator abstracted as a record of functions
  (`REnv`), fallible calls returning `Except String String` in place of
  promises that may reject;
* `isRDocArgs` — the runtime argument validator, over a small model of
  JavaScript values (`JSVal`).

JavaScript semantics that matter here are embedded explicitly: string
truthiness (`""` is falsy, mirrored by `symTruthy` / `usageTruthy`),
`String.prototype.includes` (`jsIncludes`), `Array.prototype.join`
(`String.intercalate`), `split('\n')` (`String.splitOn`), and the two
section-header regexes `/^_[A-Za-z_]+:/` and `/^[A-Z][a-z]+:/` (decomposed
into `headerUnderscore` / `headerCapital`; since `:` is outside both
character classes, greedy matching coincides with maximal munch).
-/

namespace RDocs

/-- Model of `String.prototype.startsWith` on character lists. -/
def hasPrefixCL : List Char → List Char → Bool
  | [], _ => true
  | _ :: _, [] => false
  | a :: as, b :: bs => a == b && hasPrefixCL as bs

/-- Model of substring search on character lists. -/
def hasSubCL (sub : List Char) : List Char → Bool
  | [] => hasPrefixCL sub []
  | c :: rest => hasPrefixCL sub (c :: rest) || hasSubCL sub rest

/-- Model of JavaScript `s.includes(sub)`. -/
def jsIncludes (s sub : String) : Bool :=
  hasSubCL sub.data s.data

/-- Split a character list at every occurrence of a separator, JavaScript
`split` style: the result always has one more part than there are
separators, so the empty input yields `[[]]`. -/
def splitCharList (sep : Char) : List Char → List (List Char)
  | [] => [[]]
  | c :: rest =>
    match splitCharList sep rest with
    | [] => [[]]
    | h :: t => if c == sep then [] :: h :: t else (c :: h) :: t

/-- Model of JavaScript `doc.split('\n')`. -/
def jsSplitNewline (s : String) : List String :=
  (splitCharList '\n' s.data).map String.mk

/-- Model of JavaScript `array.join('\n')`. -/
def joinNL : List String → String
  | [] => ""
  | [l] => l
  | l :: ls => l ++ "\n" ++ joinNL ls

/-- Model of JavaScript `s.trim()`: strip whitespace from both ends. -/
def jsTrim (s : String) : String :=
  String.mk (((s.data.dropWhile Char.isWhitespace).reverse.dropWhile
    Char.isWhitespace).reverse)

/-- Model of JavaScript `s.toLowerCase()` (the section names it is applied
to consist of ASCII letters only). -/
def jsToLower (s : String) : String :=
  String.mk (s.data.map Char.toLower)

/-- JavaScript truthiness of an optional string: `undefined` and `""` are falsy. -/
def symTruthy : Option String → Bool
  | none => false
  | some s => s != ""

/-- JavaScript truthiness of `result.usage`: `undefined` and `""` are falsy. -/
def usageTruthy : Option String → Bool
  | none => false
  | some u => u != ""

/-- The character class `[A-Za-z_]` of the header regexes. -/
def isWordChar (c : Char) : Bool := c.isAlpha || c == '_'

/-- The regex `/^_[A-Za-z_]+:/` from `parseRDoc`: an underscore, then a
non-empty run of word characters, then a colon.  Because `:` is not in the
class, the greedy run is exactly the maximal one. -/
def headerUnderscore : List Char → Bool
  | '_' :: rest =>
    !(rest.takeWhile isWordChar).isEmpty &&
      ((rest.dropWhile isWordChar).head? == some ':')
  | _ => false

/-- The regex `/^[A-Z][a-z]+:/` from `parseRDoc`: an upper-case letter, a
non-empty run of lower-case letters, then a colon. -/
def headerCapital : List Char → Bool
  | c :: rest =>
    c.isUpper && !(rest.takeWhile Char.isLower).isEmpty &&
      ((rest.dropWhile Char.isLower).head? == some ':')
  | [] => false

/-- Line 248 of the source: a line is a section header when it matches
either header regex. -/
def isHeaderLine (line : String) : Bool :=
  headerUnderscore line.data || headerCapital line.data

/-- Lines 255–257 of the source: the three chained `replace` calls that
strip the decoration from a header line, yielding the section name.
`replace(/^_([A-Za-z_]+):.*`/, '$1')` keeps only the captured run;
`replace(/_/g, '')` deletes underscores; `replace(/^([A-Z][a-z]+):.*`/, '$1')`
keeps the leading capitalized word of a plain header. -/
def extractSectionName (line : String) : String :=
  let s1 : List Char :=
    match line.data with
    | '_' :: rest =>
      if !(rest.takeWhile isWordChar).isEmpty &&
          ((rest.dropWhile isWordChar).head? == some ':') then
        rest.takeWhile isWordChar
      else line.data
    | _ => line.data
  let s2 : List Char := s1.filter (fun c => c != '_')
  let s3 : List Char :=
    match s2 with
    | c :: rest =>
      if c.isUpper && !(rest.takeWhile Char.isLower).isEmpty &&
          ((rest.dropWhile Char.isLower).head? == some ':') then
        c :: rest.takeWhile Char.isLower
      else s2
    | [] => s2
  String.mk s3

/-- The caller-facing result shape (`DocResult` in the source).  The
`searchResults` field of the TypeScript interface is omitted: no code path
of `r-docs-integration.ts` ever assigns it. -/
structure DocResult where
  description : Option String := none
  usage : Option String := none
  «example» : Option String := none
  error : Option String := none
  suggestInstall : Option Bool := none
deriving DecidableEq

/-- Lines 281–326 of the source: `addSectionToResult`.  The `switch` on
`section.toLowerCase()` becomes an `if`-chain; `result.usage += x` appends
when `result.usage` is truthy and otherwise starts a fresh string without
the leading separator, exactly as the `if (result.usage)` branches do. -/
def addSectionToResult (result : DocResult) (sec : String) (content : String) : DocResult :=
  if jsToLower sec = "description" then { result with description := some content }
  else if jsToLower sec = "usage" then { result with usage := some content }
  else if jsToLower sec = "arguments" then
    if usageTruthy result.usage then
      { result with usage := some (result.usage.getD "" ++ "\n\n## Arguments\n\n" ++ content) }
    else { result with usage := some ("## Arguments\n\n" ++ content) }
  else if jsToLower sec = "value" then
    if usageTruthy result.usage then
      { result with usage := some (result.usage.getD "" ++ "\n\n## Return Value\n\n" ++ content) }
    else { result with usage := some ("## Return Value\n\n" ++ content) }
  else if jsToLower sec = "details" then
    if usageTruthy result.usage then
      { result with usage := some (result.usage.getD "" ++ "\n\n## Details\n\n" ++ content) }
    else { result with usage := some ("## Details\n\n" ++ content) }
  else if jsToLower sec = "examples" then { result with «example» := some content }
  else if jsToLower sec = "references" ∨ jsToLower sec = "seealso" ∨
      jsToLower sec = "author" ∨ jsToLower sec = "note" then
    if usageTruthy result.usage then
      { result with usage := some (result.usage.getD "" ++ "\n\n## " ++ sec ++ "\n\n" ++ content) }
    else { result with usage := some ("## " ++ sec ++ "\n\n" ++ content) }
  else result

/-- One flush of the scanning loop: lines 250–252 and 266–268 of the source
emit `(currentSection, sectionContent.join('\n'))` only when
`currentSection` is truthy and `sectionContent` is non-empty. -/
def flushSec (cur : String) (content : List String) : List (String × String) :=
  if cur ≠ "" ∧ content ≠ [] then [(cur, joinNL content)] else []

/-- The scanning loop of `parseRDoc` (lines 243–268), reified as the ordered
list of `(sectionName, content)` pairs passed to `addSectionToResult`.
The flush decisions never read the result object, so folding
`addSectionToResult` over this list reproduces the source's interleaved
mutation exactly. -/
def collectGo (cur : String) (content : List String) : List String → List (String × String)
  | [] => flushSec cur content
  | l :: rest =>
    if isHeaderLine l then
      flushSec cur content ++ collectGo (extractSectionName l) [] rest
    else
      collectGo cur (content ++ [l]) rest

/-- The section flushes produced by scanning `doc.split('\n')` from line
index 3 with an initially empty `currentSection`. -/
def scanSections (doc : String) : List (String × String) :=
  collectGo "" [] ((jsSplitNewline doc).drop 3)

/-- Fold the flushed sections into a result via `addSectionToResult`. -/
def foldSections (L : List (String × String)) (r : DocResult) : DocResult :=
  L.foldl (fun r p => addSectionToResult r p.1 p.2) r

/-- Lines 237–240 of the source: the result before any section is folded,
with `description` seeded from the trimmed line at index 2 when the input
has more than two lines. -/
def initResult (doc : String) : DocResult :=
  if 2 < (jsSplitNewline doc).length then
    { description := some (jsTrim ((jsSplitNewline doc).getD 2 "")) }
  else {}

/-- The result of the scanning loop, before the package-overview fallback. -/
def preResult (doc : String) : DocResult :=
  foldSections (scanSections doc) (initResult doc)

/-- Lines 209–276 of the source: `parseRDoc`.  The guard mirrors
`!doc || doc.includes('Documentation not found') || doc.trim() === ''`;
the error message mirrors the ternary on the truthiness of `symbol`; the
final `if (!result.usage && !symbol)` fallback copies the raw text into
`usage`. -/
def parseRDoc (doc packageName : String) (symbol : Option String) : DocResult :=
  if doc = "" ∨ jsIncludes doc "Documentation not found" = true ∨ jsTrim doc = "" then
    { error := some ("Documentation not found for " ++
        (if symTruthy symbol then packageName ++ "::" ++ symbol.getD ""
         else "package " ++ packageName)) }
  else if !usageTruthy (preResult doc).usage && !symTruthy symbol then
    { preResult doc with usage := some doc }
  else preResult doc

/-- The `RDocArgs` interface of the source (`package`, optional `symbol`,
optional `projectPath`). -/
structure RDocArgsL where
  package : String
  symbol : Option String := none
  projectPath : Option String := none

/-- The external `Rscript` collaborator consumed by the facade, abstracted
as pure functions.  A fallible fetch returns `Except String String`: `ok`
carries the captured stdout, `error` carries the rejection message that the
source reads as `error.message`. -/
structure REnv where
  rInstalled : Bool
  packageInstalled : String → Bool
  fetchHelp : String → Option String → Except String String
  fetchExamples : String → String → Except String String
  fetchDescription : String → Except String String
  fetchFunctions : String → Except String String

/-- Line 93 and 141 of the source: the tool-unavailable message. -/
def rNotInstalledMsg : String :=
  "R is not installed or not in the PATH. Please install R and make sure it\x27s available in your PATH."

/-- Lines 101 and 149 of the source: the package-unavailable message. -/
def packageNotInstalledMsg (packageName : String) : String :=
  "Package " ++ packageName ++
    " is not installed. Try installing it with \x27install.packages(\"" ++
    packageName ++ "\")\x27 in R."

/-- The primary help-text fetch.  Lines 107–116 build the `Rscript` command
from the truthiness of `symbol` (a symbol-specific `help()` call when
`symbol` is truthy, the package overview otherwise) and run it once. -/
def primaryFetch (env : REnv) (args : RDocArgsL) : Except String String :=
  env.fetchHelp args.package (if symTruthy args.symbol then args.symbol else none)

/-- Lines 84–127 of the source: `describeRPackage`.  The availability
checks short-circuit in source order; the single `catch` around the body
turns a rejected primary fetch into the `Failed to fetch` error result. -/
def describeRPackage (env : REnv) (args : RDocArgsL) : DocResult :=
  if !env.rInstalled then { error := some rNotInstalledMsg }
  else if !env.packageInstalled args.package then
    { error := some (packageNotInstalledMsg args.package), suggestInstall := some true }
  else
    match primaryFetch env args with
    | .ok stdout => parseRDoc stdout args.package args.symbol
    | .error e => { error := some ("Failed to fetch R documentation: " ++ e) }

/-- Lines 132–204 of the source: `getRPackageDoc`.  On the symbol path the
separate examples fetch has its own `try`/`catch`: a rejection is swallowed
and the parsed result is returned unchanged, while a non-blank examples
output overwrites `result.example` (line 169 tests
`examplesOutput && examplesOutput.trim() !== ''`).  On the package path the
three fetches run under the outer `catch` and their outputs are assembled
into `description` and `usage`. -/
def getRPackageDoc (env : REnv) (args : RDocArgsL) : DocResult :=
  if !env.rInstalled then { error := some rNotInstalledMsg }
  else if !env.packageInstalled args.package then
    { error := some (packageNotInstalledMsg args.package), suggestInstall := some true }
  else if symTruthy args.symbol then
    match env.fetchHelp args.package args.symbol with
    | .error e => { error := some ("Failed to fetch R documentation: " ++ e) }
    | .ok helpOutput =>
      let result := parseRDoc helpOutput args.package args.symbol
      match env.fetchExamples args.package (args.symbol.getD "") with
      | .error _ => result
      | .ok examplesOutput =>
        if examplesOutput ≠ "" ∧ jsTrim examplesOutput ≠ "" then
          { result with «example» := some examplesOutput }
        else result
  else
    match env.fetchHelp args.package none with
    | .error e => { error := some ("Failed to fetch R documentation: " ++ e) }
    | .ok overviewOutput =>
      match env.fetchDescription args.package with
      | .error e => { error := some ("Failed to fetch R documentation: " ++ e) }
      | .ok descOutput =>
        match env.fetchFunctions args.package with
        | .error e => { error := some ("Failed to fetch R documentation: " ++ e) }
        | .ok functionsOutput =>
          { description := some descOutput,
            usage := some ("# Package Overview\n\n" ++ overviewOutput ++
              "\n\n# Exported Functions\n\n" ++ functionsOutput) }

/-- A small model of JavaScript values, enough to state what the runtime
argument validator accepts. -/
inductive JSVal where
  | vstr : String → JSVal
  | vnum : Int → JSVal
  | vbool : Bool → JSVal
  | vundefined : JSVal
  | vnull : JSVal
  | vobj : List (String × JSVal) → JSVal

/-- Model of `typeof v === "string"`. -/
def typeofIsString : JSVal → Bool
  | .vstr _ => true
  | _ => false

/-- Model of `v === undefined`. -/
def isUndefined : JSVal → Bool
  | .vundefined => true
  | _ => false

/-- Model of `typeof v === "object"` (which is also true of `null`). -/
def typeofIsObject : JSVal → Bool
  | .vobj _ => true
  | .vnull => true
  | _ => false

/-- Model of `v === null`. -/
def isNull : JSVal → Bool
  | .vnull => true
  | _ => false

/-- Model of property access `v[k]`: a missing property reads as
`undefined`.  The validator only reaches property access on objects. -/
def getField (v : JSVal) (k : String) : JSVal :=
  match v with
  | .vobj fs =>
    match fs.find? (fun p => p.1 == k) with
    | some p => p.2
    | none => .vundefined
  | _ => .vundefined

/-- Lines 15–25 of the source: the `isRDocArgs` type guard.  It checks that
the value is a non-null object whose `package` property is a string and
whose `symbol` and `projectPath` properties are each a string or
`undefined`.  No emptiness checks appear anywhere. -/
def isRDocArgs (v : JSVal) : Bool :=
  typeofIsObject v && !isNull v &&
  typeofIsString (getField v "package") &&
  (typeofIsString (getField v "symbol") || isUndefined (getField v "symbol")) &&
  (typeofIsString (getField v "projectPath") || isUndefined (getField v "projectPath"))

/-! ### Helper lemmas -/

/-- A string with a non-empty left part is non-empty. -/
theorem append_left_ne_empty (s t : String) (h : s ≠ "") : s ++ t ≠ "" := by
  intro hc
  apply h
  have hd : (s ++ t).data = s.data ++ t.data := String.data_append s t
  have hnil : s.data ++ t.data = [] := by
    rw [← hd, hc]
  rcases List.append_eq_nil.mp hnil with ⟨h1, _⟩
  cases s
  simp_all

/-- Folding `addSectionToResult` never writes the `error` field. -/
theorem addSectionToResult_error (r : DocResult) (s c : String) :
    (addSectionToResult r s c).error = r.error := by
  unfold addSectionToResult
  repeat' split
  all_goals rfl

/-- Folding a section whose lowered name is not `description` leaves the
`description` field unchanged. -/
theorem addSectionToResult_description_of_ne (r : DocResult) (s c : String)
    (h : jsToLower s ≠ "description") :
    (addSectionToResult r s c).description = r.description := by
  unfold addSectionToResult
  repeat' split
  all_goals first
    | rfl
    | exact absurd (by assumption) h

/-- The `error` field survives a whole fold of sections. -/
theorem foldSections_error (L : List (String × String)) :
    ∀ r : DocResult, (foldSections L r).error = r.error := by
  induction L with
  | nil => intro r; rfl
  | cons p t ih =>
    intro r
    show (foldSections t (addSectionToResult r p.1 p.2)).error = r.error
    rw [ih, addSectionToResult_error]

/-- The `description` field survives a fold that contains no section whose
lowered name is `description`. -/
theorem foldSections_description (L : List (String × String))
    (h : ∀ p ∈ L, jsToLower p.1 ≠ "description") :
    ∀ r : DocResult, (foldSections L r).description = r.description := by
  induction L with
  | nil => intro r; rfl
  | cons p t ih =>
    intro r
    show (foldSections t (addSectionToResult r p.1 p.2)).description = r.description
    rw [ih (fun q hq => h q (List.mem_cons_of_mem p hq)),
      addSectionToResult_description_of_ne r p.1 p.2 (h p (List.mem_cons_self p t))]

/-- Flushing with an empty (falsy) section name emits nothing. -/
theorem flushSec_empty_cur (content : List String) : flushSec "" content = [] := by
  simp [flushSec]

/-- Flushing with no accumulated content lines emits nothing. -/
theorem flushSec_empty_content (cur : String) : flushSec cur [] = [] := by
  simp [flushSec]

/-- Flushing a named section with content emits exactly that section. -/
theorem flushSec_of_ne (cur : String) (content : List String)
    (h1 : cur ≠ "") (h2 : content ≠ []) :
    flushSec cur content = [(cur, joinNL content)] := by
  simp [flushSec, h1, h2]

/-- Scanning a block of non-header lines just accumulates them as content. -/
theorem collectGo_block (B : List String) (hB : ∀ l ∈ B, isHeaderLine l = false) :
    ∀ (cur : String) (content : List String) (rest : List String),
      collectGo cur content (B ++ rest) = collectGo cur (content ++ B) rest := by
  induction B with
  | nil => intro cur content rest; simp
  | cons b bs ih =>
    intro cur content rest
    have hb : isHeaderLine b = false := hB b (List.mem_cons_self b bs)
    show collectGo cur content (b :: (bs ++ rest)) = _
    rw [collectGo, if_neg (by simp [hb])]
    rw [ih (fun l hl => hB l (List.mem_cons_of_mem b hl))]
    simp

/-- Scanning a header line flushes the pending section and restarts
accumulation under the extracted name. -/
theorem collectGo_header (l : String) (hl : isHeaderLine l = true)
    (cur : String) (content : List String) (rest : List String) :
    collectGo cur content (l :: rest) =
      flushSec cur content ++ collectGo (extractSectionName l) [] rest := by
  rw [collectGo, if_pos hl]

/-- On an accepted input the guard of `parseRDoc` is passed and only the
usage fallback remains. -/
theorem parseRDoc_accepted (doc packageName : String) (symbol : Option String)
    (h1 : jsTrim doc ≠ "") (h2 : jsIncludes doc "Documentation not found" = false) :
    parseRDoc doc packageName symbol =
      if !usageTruthy (preResult doc).usage && !symTruthy symbol then
        { preResult doc with usage := some doc }
      else preResult doc := by
  have hde : doc ≠ "" := by
    intro hc
    exact h1 (by rw [hc]; decide)
  unfold parseRDoc
  rw [if_neg]
  push_neg
  exact ⟨hde, by simp [h2], h1⟩

/-- Reassociation of the package-level not-found message. -/
theorem doc_msg_pkg (pn : String) :
    "Documentation not found for " ++ ("package " ++ pn) =
      "Documentation not found for package " ++ pn := by
  rw [← String.append_assoc]
  rfl

/-- Scanning ends by flushing the pending section. -/
theorem collectGo_nil (cur : String) (content : List String) :
    collectGo cur content [] = flushSec cur content := by
  simp [collectGo]

/-- Scanning a final block of non-header lines flushes them as the pending
section's content. -/
theorem collectGo_final (cur : String) (B : List String)
    (hB : ∀ l ∈ B, isHeaderLine l = false) :
    collectGo cur [] B = flushSec cur B := by
  have h := collectGo_block B hB cur [] []
  rw [List.append_nil] at h
  rw [h, List.nil_append, collectGo_nil]

/-- Folding a section whose lowered name is `usage` overwrites `usage`. -/
theorem addSection_usage_case (r : DocResult) (sec c : String)
    (h : jsToLower sec = "usage") :
    addSectionToResult r sec c = { r with usage := some c } := by
  unfold addSectionToResult
  rw [h]
  simp

/-- Folding a section whose lowered name is `arguments` onto a truthy
`usage` appends under the `## Arguments` sub-heading. -/
theorem addSection_arguments_append (r : DocResult) (sec c u : String)
    (hr : r.usage = some u) (hu : u ≠ "") (h : jsToLower sec = "arguments") :
    addSectionToResult r sec c =
      { r with usage := some (u ++ "\n\n## Arguments\n\n" ++ c) } := by
  unfold addSectionToResult
  rw [h, hr]
  simp [usageTruthy, hu]

/-- Folding a section whose lowered name is `value` onto a truthy `usage`
appends under the `## Return Value` sub-heading. -/
theorem addSection_value_append (r : DocResult) (sec c u : String)
    (hr : r.usage = some u) (hu : u ≠ "") (h : jsToLower sec = "value") :
    addSectionToResult r sec c =
      { r with usage := some (u ++ "\n\n## Return Value\n\n" ++ c) } := by
  unfold addSectionToResult
  rw [h, hr]
  simp [usageTruthy, hu]

/-! ### Claim theorems -/

/-- C1: for raw text that is empty, whitespace-only, or contains the
`Documentation not found` marker, `parseRDoc` returns a result whose only
populated field is `error`, with the symbol-qualified message when a
(non-empty) symbol is present and the package-level message otherwise; the
early return performs no section scanning. -/
theorem parseRDoc_not_found (doc packageName : String) (symbol : Option String)
    (h : doc = "" ∨ jsIncludes doc "Documentation not found" = true ∨ jsTrim doc = "") :
    (symbol = none →
      parseRDoc doc packageName symbol =
        { error := some ("Documentation not found for package " ++ packageName) }) ∧
    (∀ s, symbol = some s → s ≠ "" →
      parseRDoc doc packageName symbol =
        { error := some ("Documentation not found for " ++ packageName ++ "::" ++ s) }) := by
  constructor
  · intro hs
    subst hs
    unfold parseRDoc
    rw [if_pos h]
    simp [symTruthy, doc_msg_pkg]
  · intro s hs hne
    subst hs
    unfold parseRDoc
    rw [if_pos h]
    simp [symTruthy, hne, String.append_assoc]

/-- Witness for C1 at concrete inputs: the empty raw text without a symbol,
and a whitespace-only raw text with symbol `median`. -/
theorem parseRDoc_not_found_witness :
    parseRDoc "" "stats" none =
      { error := some ("Documentation not found for package " ++ "stats") } ∧
    parseRDoc " \n " "stats" (some "median") =
      { error := some ("Documentation not found for " ++ "stats" ++ "::" ++ "median") } := by
  constructor
  · exact (parseRDoc_not_found "" "stats" none (Or.inl rfl)).1 rfl
  · exact (parseRDoc_not_found " \n " "stats" (some "median")
      (Or.inr (Or.inr (by decide)))).2 "median" rfl (by decide)

/-- C2, counterexample: the claim quantifies over all non-empty raw texts
without the marker, but the whitespace-only text `" "` is non-empty,
contains no marker, and still yields an `error` (the guard also tests
`doc.trim() === ''`). -/
theorem parseRDoc_nonempty_error_cex :
    (" " : String) ≠ "" ∧
    jsIncludes " " "Documentation not found" = false ∧
    (parseRDoc " " "p" none).error = some "Documentation not found for package p" := by
  refine ⟨by decide, by decide, by decide⟩

/-- C2, amended: for raw text that is non-blank after trimming and does not
contain the marker, the parse result carries no `error` field — the scan
and the usage fallback only ever write `description`, `usage` and
`example`. -/
theorem parseRDoc_no_error (doc pn : String) (sym : Option String)
    (h1 : jsTrim doc ≠ "") (h2 : jsIncludes doc "Documentation not found" = false) :
    (parseRDoc doc pn sym).error = none := by
  rw [parseRDoc_accepted doc pn sym h1 h2]
  have hpre : (preResult doc).error = none := by
    unfold preResult
    rw [foldSections_error]
    unfold initResult
    split <;> rfl
  split
  · exact hpre
  · exact hpre

/-- Witness for C2 at a concrete input. -/
theorem parseRDoc_no_error_witness :
    (parseRDoc "mean  package:base  R Documentation" "base" (some "mean")).error = none :=
  parseRDoc_no_error "mean  package:base  R Documentation" "base" (some "mean")
    (by decide) (by decide)

/-- C4: on accepted input, when the scan populated no `usage` and no symbol
was requested, `usage` becomes the whole raw text verbatim; with a
(non-empty) symbol present it stays absent. -/
theorem parseRDoc_usage_fallback (doc pn : String)
    (h1 : jsTrim doc ≠ "") (h2 : jsIncludes doc "Documentation not found" = false)
    (hnou : (preResult doc).usage = none) :
    (parseRDoc doc pn none).usage = some doc ∧
    ∀ s : String, s ≠ "" → (parseRDoc doc pn (some s)).usage = none := by
  constructor
  · have hcond : (!usageTruthy (preResult doc).usage && !symTruthy none) = true := by
      rw [hnou]
      rfl
    rw [parseRDoc_accepted doc pn none h1 h2, if_pos hcond]
  · intro s hs
    have hcond : ¬(!usageTruthy (preResult doc).usage && !symTruthy (some s)) = true := by
      rw [hnou]
      simp [symTruthy, hs]
    rw [parseRDoc_accepted doc pn (some s) h1 h2, if_neg hcond]
    exact hnou

/-- C3, counterexample: the claim quantifies over all accepted inputs with
`Usage`, `Arguments`, `Value` sections of contents `U`, `A`, `V`, but when
the `Usage` section holds a single blank line its content `U` is the empty
string, the truthiness test `if (result.usage)` treats it as absent, and
the `Arguments` block starts without `U` and without the leading blank-line
separator the claim requires. -/
theorem parseRDoc_fold_order_cex :
    scanSections "a\nb\nc\n_U_s_a_g_e:\n\n_A_r_g_u_m_e_n_t_s:\nx\n_V_a_l_u_e:\ny" =
      [("Usage", ""), ("Arguments", "x"), ("Value", "y")] ∧
    (parseRDoc "a\nb\nc\n_U_s_a_g_e:\n\n_A_r_g_u_m_e_n_t_s:\nx\n_V_a_l_u_e:\ny" "p"
        (some "f")).usage =
      some "## Arguments\n\nx\n\n## Return Value\n\ny" ∧
    (parseRDoc "a\nb\nc\n_U_s_a_g_e:\n\n_A_r_g_u_m_e_n_t_s:\nx\n_V_a_l_u_e:\ny" "p"
        (some "f")).usage ≠
      some ("" ++ "\n\n## Arguments\n\n" ++ "x" ++ "\n\n## Return Value\n\n" ++ "y") := by
  refine ⟨by decide, by decide, by decide⟩

/-- C3, amended: for an accepted input whose lines are a three-line
preamble, an optional non-header block, then a `Usage` header with content
`U`, an `Arguments` header with content `A` and a `Value` header with
content `V` (each section non-empty, and `U` non-empty as a string — the
truthiness check loses a blank `U`), the parsed `usage` is `U`, a blank
line, `## Arguments`, a blank line, `A`, a blank line, `## Return Value`, a
blank line, and `V`, in that order. -/
theorem parseRDoc_fold_order (doc pn : String) (sym : Option String)
    (l0 l1 l2 : String) (P U A V : List String) (hU hA hV : String)
    (hsplit : jsSplitNewline doc = l0 :: l1 :: l2 :: (P ++ hU :: (U ++ hA :: (A ++ hV :: V))))
    (hPh : ∀ l ∈ P, isHeaderLine l = false)
    (hUhead : isHeaderLine hU = true) (hUname : jsToLower (extractSectionName hU) = "usage")
    (hAhead : isHeaderLine hA = true) (hAname : jsToLower (extractSectionName hA) = "arguments")
    (hVhead : isHeaderLine hV = true) (hVname : jsToLower (extractSectionName hV) = "value")
    (hUh : ∀ l ∈ U, isHeaderLine l = false)
    (hAh : ∀ l ∈ A, isHeaderLine l = false)
    (hVh : ∀ l ∈ V, isHeaderLine l = false)
    (hUne : U ≠ []) (hAne : A ≠ []) (hVne : V ≠ [])
    (hUcontent : joinNL U ≠ "")
    (hacc1 : jsTrim doc ≠ "") (hacc2 : jsIncludes doc "Documentation not found" = false) :
    (parseRDoc doc pn sym).usage =
      some (joinNL U ++ "\n\n## Arguments\n\n" ++ joinNL A ++
        "\n\n## Return Value\n\n" ++ joinNL V) := by
  have hEU : extractSectionName hU ≠ "" := by
    intro hc
    rw [hc] at hUname
    exact absurd hUname (by decide)
  have hEA : extractSectionName hA ≠ "" := by
    intro hc
    rw [hc] at hAname
    exact absurd hAname (by decide)
  have hEV : extractSectionName hV ≠ "" := by
    intro hc
    rw [hc] at hVname
    exact absurd hVname (by decide)
  have hscan : scanSections doc =
      [(extractSectionName hU, joinNL U), (extractSectionName hA, joinNL A),
        (extractSectionName hV, joinNL V)] := by
    unfold scanSections
    rw [hsplit]
    show collectGo "" [] (P ++ hU :: (U ++ hA :: (A ++ hV :: V))) = _
    rw [collectGo_block P hPh, collectGo_header hU hUhead, flushSec_empty_cur,
      List.nil_append, collectGo_block U hUh, List.nil_append,
      collectGo_header hA hAhead, flushSec_of_ne _ _ hEU hUne,
      collectGo_block A hAh, List.nil_append,
      collectGo_header hV hVhead, flushSec_of_ne _ _ hEA hAne,
      collectGo_final _ V hVh, flushSec_of_ne _ _ hEV hVne]
    simp
  have hUA_ne : joinNL U ++ "\n\n## Arguments\n\n" ≠ "" :=
    append_left_ne_empty _ _ hUcontent
  have hUAA_ne : joinNL U ++ "\n\n## Arguments\n\n" ++ joinNL A ≠ "" :=
    append_left_ne_empty _ _ hUA_ne
  have hpre : preResult doc =
      { initResult doc with usage := some (joinNL U ++ "\n\n## Arguments\n\n" ++
          joinNL A ++ "\n\n## Return Value\n\n" ++ joinNL V) } := by
    unfold preResult
    rw [hscan]
    show addSectionToResult (addSectionToResult (addSectionToResult (initResult doc)
      (extractSectionName hU) (joinNL U)) (extractSectionName hA) (joinNL A))
      (extractSectionName hV) (joinNL V) = _
    rw [addSection_usage_case _ _ _ hUname,
      addSection_arguments_append _ _ _ (joinNL U) rfl hUcontent hAname,
      addSection_value_append _ _ _ (joinNL U ++ "\n\n## Arguments\n\n" ++ joinNL A)
        rfl hUAA_ne hVname]
  have hpreU : (preResult doc).usage =
      some (joinNL U ++ "\n\n## Arguments\n\n" ++ joinNL A ++
        "\n\n## Return Value\n\n" ++ joinNL V) := by
    rw [hpre]
  have hbig : joinNL U ++ "\n\n## Arguments\n\n" ++ joinNL A ++
      "\n\n## Return Value\n\n" ++ joinNL V ≠ "" :=
    append_left_ne_empty _ _ (append_left_ne_empty _ _ hUAA_ne)
  rw [parseRDoc_accepted doc pn sym hacc1 hacc2,
    if_neg (by rw [hpreU]; simp [usageTruthy, hbig])]
  exact hpreU

/-- Witness for C3 at a concrete input, exercising both header styles. -/
theorem parseRDoc_fold_order_witness :
    (parseRDoc "t\nh\nd\n_U_s_a_g_e:\nu1\nArguments:\na1\nValue:\nv1" "p"
        (some "f")).usage =
      some (joinNL ["u1"] ++ "\n\n## Arguments\n\n" ++ joinNL ["a1"] ++
        "\n\n## Return Value\n\n" ++ joinNL ["v1"]) :=
  parseRDoc_fold_order "t\nh\nd\n_U_s_a_g_e:\nu1\nArguments:\na1\nValue:\nv1" "p"
    (some "f") "t" "h" "d" [] ["u1"] ["a1"] ["v1"]
    "_U_s_a_g_e:" "Arguments:" "Value:" (by decide)
    (by intro l hl; cases hl) (by decide) (by decide) (by decide) (by decide)
    (by decide) (by decide)
    (by intro l hl; simp at hl; subst hl; decide)
    (by intro l hl; simp at hl; subst hl; decide)
    (by intro l hl; simp at hl; subst hl; decide)
    (by decide) (by decide) (by decide) (by decide) (by decide) (by decide)

/-- Witness for C4: a four-line document with no section headers. -/
theorem parseRDoc_usage_fallback_witness :
    (parseRDoc "a\nb\nc\nd" "p" none).usage = some "a\nb\nc\nd" ∧
    (parseRDoc "a\nb\nc\nd" "p" (some "f")).usage = none := by
  have h := parseRDoc_usage_fallback "a\nb\nc\nd" "p" (by decide) (by decide) (by decide)
  exact ⟨h.1, h.2 "f" (by decide)⟩

/-- C5: on accepted input with more than two lines, `description` is seeded
with the trimmed line at index 2 and keeps that value unless a
`Description` section is folded in later; with at most two lines the parse
still returns normally and `description` stays unset (the scan starts at
line index 3, so no fold can run). -/
theorem parseRDoc_description_preamble (doc pn : String) (sym : Option String)
    (h1 : jsTrim doc ≠ "") (h2 : jsIncludes doc "Documentation not found" = false) :
    ((jsSplitNewline doc).length ≤ 2 → (parseRDoc doc pn sym).description = none) ∧
    (2 < (jsSplitNewline doc).length →
      (∀ p ∈ scanSections doc, jsToLower p.1 ≠ "description") →
      (parseRDoc doc pn sym).description =
        some (jsTrim ((jsSplitNewline doc).getD 2 ""))) := by
  have hacc := parseRDoc_accepted doc pn sym h1 h2
  constructor
  · intro hle
    rw [hacc]
    have hscan : scanSections doc = [] := by
      unfold scanSections
      have hdrop : (jsSplitNewline doc).drop 3 = [] :=
        List.drop_eq_nil_of_le (by omega)
      rw [hdrop]
      simp [collectGo, flushSec]
    have hpre : (preResult doc).description = none := by
      unfold preResult
      rw [hscan]
      show (initResult doc).description = none
      unfold initResult
      rw [if_neg (by omega)]
    split
    · exact hpre
    · exact hpre
  · intro hgt hnodesc
    rw [hacc]
    have hpre : (preResult doc).description =
        some (jsTrim ((jsSplitNewline doc).getD 2 "")) := by
      unfold preResult
      rw [foldSections_description (scanSections doc) hnodesc]
      unfold initResult
      rw [if_pos hgt]
    split
    · exact hpre
    · exact hpre

/-- Witness for C5: a one-line document (no out-of-range access, no
description), and a four-line document whose third line is taken, trimmed,
as the description. -/
theorem parseRDoc_description_preamble_witness :
    (parseRDoc "x" "p" none).description = none ∧
    (parseRDoc "a\nb\n c \nz" "p" none).description =
      some (jsTrim (( jsSplitNewline "a\nb\n c \nz").getD 2 "")) := by
  constructor
  · exact (parseRDoc_description_preamble "x" "p" none (by decide) (by decide)).1
      (by decide)
  · exact (parseRDoc_description_preamble "a\nb\n c \nz" "p" none (by decide)
      (by decide)).2 (by decide) (by decide)

/-- C10: a recognized section header immediately followed by another header
line, or standing at end of input, accumulates no content lines, so the
flush guard `sectionContent.length > 0` skips it: the emitted fold list —
and hence the folded result — is exactly as if the empty section were
absent, and no field set earlier is cleared or overwritten by it. -/
theorem emptySection_dropped (cur : String) (content : List String)
    (h1 h2 : String) (rest : List String)
    (hh1 : isHeaderLine h1 = true) (hh2 : isHeaderLine h2 = true) :
    collectGo cur content (h1 :: h2 :: rest) = collectGo cur content (h2 :: rest) ∧
    collectGo cur content [h1] = collectGo cur content [] := by
  constructor
  · rw [collectGo_header h1 hh1, collectGo_header h2 hh2, collectGo_header h2 hh2,
      flushSec_empty_content]
    simp
  · have hnil : collectGo (extractSectionName h1) [] [] = [] := by
      simp [collectGo, flushSec]
    rw [collectGo_header h1 hh1, hnil]
    simp [collectGo]

/-- Witness for C10 at concrete inputs: `Note:` directly followed by
`Value:`, and `Note:` at end of input. -/
theorem emptySection_dropped_witness :
    collectGo "Usage" ["x"] ["Note:", "Value:", "y"] =
      collectGo "Usage" ["x"] ["Value:", "y"] ∧
    collectGo "Usage" ["x"] ["Note:"] = collectGo "Usage" ["x"] [] :=
  emptySection_dropped "Usage" ["x"] "Note:" "Value:" ["y"] (by decide) (by decide)

/-- C6: `describeRPackage` answers the tool check first — when R is absent
it returns the tool error with no `suggestInstall`, whatever the package
check would say; when R is present but the package is missing it returns
the package error with `suggestInstall: true` and no success fields; and
only when both checks succeed is the fetched text handed to `parseRDoc`. -/
theorem describeRPackage_checks (env : REnv) (args : RDocArgsL) :
    (env.rInstalled = false →
      describeRPackage env args = { error := some rNotInstalledMsg }) ∧
    (env.rInstalled = true → env.packageInstalled args.package = false →
      describeRPackage env args =
        { error := some (packageNotInstalledMsg args.package),
          suggestInstall := some true }) ∧
    (∀ out, env.rInstalled = true → env.packageInstalled args.package = true →
      primaryFetch env args = Except.ok out →
      describeRPackage env args = parseRDoc out args.package args.symbol) := by
  refine ⟨?_, ?_, ?_⟩
  · intro h
    simp [describeRPackage, h]
  · intro h1 h2
    simp [describeRPackage, h1, h2]
  · intro out h1 h2 h3
    simp [describeRPackage, h1, h2, h3]

/-- Witness for C6: three collaborator environments exercising the three
outcomes of the availability checks. -/
theorem describeRPackage_checks_witness :
    describeRPackage
        ⟨false, fun _ => false, fun _ _ => Except.error "e", fun _ _ => Except.error "e",
          fun _ => Except.error "e", fun _ => Except.error "e"⟩
        ⟨"stats", none, none⟩ = { error := some rNotInstalledMsg } ∧
    describeRPackage
        ⟨true, fun _ => false, fun _ _ => Except.error "e", fun _ _ => Except.error "e",
          fun _ => Except.error "e", fun _ => Except.error "e"⟩
        ⟨"nonexistentpackage123", none, none⟩ =
      { error := some (packageNotInstalledMsg "nonexistentpackage123"),
        suggestInstall := some true } ∧
    describeRPackage
        ⟨true, fun _ => true, fun _ _ => Except.ok "a\nb\nc\nd", fun _ _ => Except.error "e",
          fun _ => Except.error "e", fun _ => Except.error "e"⟩
        ⟨"stats", none, none⟩ = parseRDoc "a\nb\nc\nd" "stats" none := by
  refine ⟨?_, ?_, ?_⟩
  · exact (describeRPackage_checks _ _).1 rfl
  · exact (describeRPackage_checks _ _).2.1 rfl rfl
  · exact (describeRPackage_checks _ _).2.2 "a\nb\nc\nd" rfl rfl rfl

/-- C7: on a symbol query whose help fetch succeeded, a failing or
blank-output examples fetch leaves the parsed result — in particular its
`example` field — unchanged, and the call still returns it; a non-blank
examples output overwrites `example` with exactly that text. -/
theorem getRPackageDoc_examples (env : REnv) (args : RDocArgsL) (s helpOut : String)
    (hR : env.rInstalled = true) (hP : env.packageInstalled args.package = true)
    (hsym : args.symbol = some s) (hs : s ≠ "")
    (hhelp : env.fetchHelp args.package (some s) = Except.ok helpOut) :
    (∀ e, env.fetchExamples args.package s = Except.error e →
      getRPackageDoc env args = parseRDoc helpOut args.package (some s)) ∧
    (∀ ex, env.fetchExamples args.package s = Except.ok ex → jsTrim ex = "" →
      getRPackageDoc env args = parseRDoc helpOut args.package (some s)) ∧
    (∀ ex, env.fetchExamples args.package s = Except.ok ex → jsTrim ex ≠ "" →
      getRPackageDoc env args =
        { parseRDoc helpOut args.package (some s) with «example» := some ex }) := by
  refine ⟨?_, ?_, ?_⟩
  · intro e hex
    simp [getRPackageDoc, hR, hP, hsym, symTruthy, hs, hhelp, hex]
  · intro ex hex htrim
    simp [getRPackageDoc, hR, hP, hsym, symTruthy, hs, hhelp, hex, htrim]
  · intro ex hex htrim
    have hexne : ex ≠ "" := by
      intro hc
      apply htrim
      rw [hc]
      decide
    simp [getRPackageDoc, hR, hP, hsym, symTruthy, hs, hhelp, hex, htrim, hexne]

/-- Witness for C7: three collaborator environments — examples fetch
rejecting, returning whitespace, and returning real text. -/
theorem getRPackageDoc_examples_witness :
    getRPackageDoc
        ⟨true, fun _ => true, fun _ _ => Except.ok "a\nb\nc\nd", fun _ _ => Except.error "boom",
          fun _ => Except.error "e", fun _ => Except.error "e"⟩
        ⟨"base", some "mean", none⟩ = parseRDoc "a\nb\nc\nd" "base" (some "mean") ∧
    getRPackageDoc
        ⟨true, fun _ => true, fun _ _ => Except.ok "a\nb\nc\nd", fun _ _ => Except.ok " \n ",
          fun _ => Except.error "e", fun _ => Except.error "e"⟩
        ⟨"base", some "mean", none⟩ = parseRDoc "a\nb\nc\nd" "base" (some "mean") ∧
    getRPackageDoc
        ⟨true, fun _ => true, fun _ _ => Except.ok "a\nb\nc\nd", fun _ _ => Except.ok "mean(1:5)",
          fun _ => Except.error "e", fun _ => Except.error "e"⟩
        ⟨"base", some "mean", none⟩ =
      { parseRDoc "a\nb\nc\nd" "base" (some "mean") with «example» := some "mean(1:5)" } := by
  refine ⟨?_, ?_, ?_⟩
  · exact (getRPackageDoc_examples _ _ "mean" "a\nb\nc\nd" rfl rfl rfl (by decide)
      rfl).1 "boom" rfl
  · exact (getRPackageDoc_examples _ _ "mean" "a\nb\nc\nd" rfl rfl rfl (by decide)
      rfl).2.1 " \n " rfl (by decide)
  · exact (getRPackageDoc_examples _ _ "mean" "a\nb\nc\nd" rfl rfl rfl (by decide)
      rfl).2.2 "mean(1:5)" rfl (by decide)

/-- C8: when the primary help fetch rejects (after both availability checks
pass), neither facade method propagates the failure: each returns a normal
`DocResult` whose `error` is `Failed to fetch R documentation: ` followed
by the underlying message. -/
theorem fetch_failure_error (env : REnv) (args : RDocArgsL) (msg : String)
    (hR : env.rInstalled = true) (hP : env.packageInstalled args.package = true)
    (hfail : primaryFetch env args = Except.error msg) :
    describeRPackage env args =
      { error := some ("Failed to fetch R documentation: " ++ msg) } ∧
    getRPackageDoc env args =
      { error := some ("Failed to fetch R documentation: " ++ msg) } := by
  constructor
  · simp [describeRPackage, hR, hP, hfail]
  · by_cases hsym : symTruthy args.symbol = true
    · have hf : env.fetchHelp args.package args.symbol = Except.error msg := by
        unfold primaryFetch at hfail
        rwa [if_pos hsym] at hfail
      simp [getRPackageDoc, hR, hP, hsym, hf]
    · have hsf : symTruthy args.symbol = false := by
        exact Bool.eq_false_iff.mpr hsym
      have hf : env.fetchHelp args.package none = Except.error msg := by
        unfold primaryFetch at hfail
        rwa [if_neg (by simp [hsf])] at hfail
      simp [getRPackageDoc, hR, hP, hsf, hf]

/-- Witness for C8: a collaborator whose help fetch rejects with `boom`,
queried once with a symbol and once without. -/
theorem fetch_failure_error_witness :
    describeRPackage
        ⟨true, fun _ => true, fun _ _ => Except.error "boom", fun _ _ => Except.error "e",
          fun _ => Except.error "e", fun _ => Except.error "e"⟩
        ⟨"stats", some "median", none⟩ =
      { error := some ("Failed to fetch R documentation: " ++ "boom") } ∧
    getRPackageDoc
        ⟨true, fun _ => true, fun _ _ => Except.error "boom", fun _ _ => Except.error "e",
          fun _ => Except.error "e", fun _ => Except.error "e"⟩
        ⟨"stats", none, none⟩ =
      { error := some ("Failed to fetch R documentation: " ++ "boom") } := by
  constructor
  · exact (fetch_failure_error
      ⟨true, fun _ => true, fun _ _ => Except.error "boom", fun _ _ => Except.error "e",
        fun _ => Except.error "e", fun _ => Except.error "e"⟩
      ⟨"stats", some "median", none⟩ "boom" rfl rfl rfl).1
  · exact (fetch_failure_error
      ⟨true, fun _ => true, fun _ _ => Except.error "boom", fun _ _ => Except.error "e",
        fun _ => Except.error "e", fun _ => Except.error "e"⟩
      ⟨"stats", none, none⟩ "boom" rfl rfl rfl).2

/-- A value passing `typeof v === "string"` is a string. -/
theorem typeofIsString_spec (x : JSVal) (h : typeofIsString x = true) :
    ∃ s, x = JSVal.vstr s := by
  cases x <;> simp_all [typeofIsString]

/-- A value passing `v === undefined` is `undefined`. -/
theorem isUndefined_spec (x : JSVal) (h : isUndefined x = true) :
    x = JSVal.vundefined := by
  cases x <;> simp_all [isUndefined]

/-- C9, counterexample: the validator accepts an object whose `package`
property is the empty string, and likewise empty-string `symbol` and
`projectPath` — it checks only `typeof`, never emptiness. -/
theorem isRDocArgs_empty_accepted_cex :
    isRDocArgs (JSVal.vobj [("package", JSVal.vstr "")]) = true ∧
    getField (JSVal.vobj [("package", JSVal.vstr "")]) "package" = JSVal.vstr "" ∧
    isRDocArgs (JSVal.vobj [("package", JSVal.vstr "x"), ("symbol", JSVal.vstr ""),
      ("projectPath", JSVal.vstr "")]) = true := by
  refine ⟨rfl, rfl, rfl⟩

/-- C9, amended: every value accepted by `isRDocArgs` has a string
`package` property, and `symbol` and `projectPath` properties that are each
`undefined` or a string; no non-emptiness is enforced on any of them. -/
theorem isRDocArgs_types (v : JSVal) (h : isRDocArgs v = true) :
    (∃ s, getField v "package" = JSVal.vstr s) ∧
    (getField v "symbol" = JSVal.vundefined ∨ ∃ s, getField v "symbol" = JSVal.vstr s) ∧
    (getField v "projectPath" = JSVal.vundefined ∨
      ∃ s, getField v "projectPath" = JSVal.vstr s) := by
  unfold isRDocArgs at h
  simp only [Bool.and_eq_true, Bool.or_eq_true] at h
  obtain ⟨⟨⟨⟨-, -⟩, hpkg⟩, hsym⟩, hpp⟩ := h
  refine ⟨typeofIsString_spec _ hpkg, ?_, ?_⟩
  · rcases hsym with hstr | hund
    · exact Or.inr (typeofIsString_spec _ hstr)
    · exact Or.inl (isUndefined_spec _ hund)
  · rcases hpp with hstr | hund
    · exact Or.inr (typeofIsString_spec _ hstr)
    · exact Or.inl (isUndefined_spec _ hund)

/-- Witness for C9 at a concrete accepted value. -/
theorem isRDocArgs_types_witness :
    (∃ s, getField (JSVal.vobj [("package", JSVal.vstr "stats"),
      ("symbol", JSVal.vstr "median")]) "package" = JSVal.vstr s) ∧
    (getField (JSVal.vobj [("package", JSVal.vstr "stats"),
        ("symbol", JSVal.vstr "median")]) "symbol" = JSVal.vundefined ∨
      ∃ s, getField (JSVal.vobj [("package", JSVal.vstr "stats"),
        ("symbol", JSVal.vstr "median")]) "symbol" = JSVal.vstr s) ∧
    (getField (JSVal.vobj [("package", JSVal.vstr "stats"),
        ("symbol", JSVal.vstr "median")]) "projectPath" = JSVal.vundefined ∨
      ∃ s, getField (JSVal.vobj [("package", JSVal.vstr "stats"),
        ("symbol", JSVal.vstr "median")]) "projectPath" = JSVal.vstr s) :=
  isRDocArgs_types (JSVal.vobj [("package", JSVal.vstr "stats"),
    ("symbol", JSVal.vstr "median")]) rfl

end RDocs
